import Mathlib

/-
Verification of the data-access layer of the Movies app: the time-boxed
CacheService, the retry interceptor of the TMDB API client, the
SearchHistoryService, and the getGenres query function.

Strings are embedded as List Char (the character sequence of a JS string),
so that concatenation, trimming and lowercasing are the structural
operations on the character list.
-/

/-- Character sequence of a string literal. -/
def str (s : String) : List Char := s.data

/- ------------------------------------------------------------------
   CacheService (src/unnamed/part_001, lines 100-206)

   The AsyncStorage backing store maps string keys to string values.  The
   cache writes two kinds of value strings: JSON.stringify of a
   CacheItem object (which begins with a brace) and expiryTime.toString()
   (a decimal numeral).  StoredStr keeps exactly that distinction: parseInt
   of a JSON-object string is NaN, JSON.parse of a numeral is a bare
   number whose .data field is undefined.
   ------------------------------------------------------------------ -/

/-- A value string held in AsyncStorage: either the JSON serialization of
a cache item record with fields data and timestamp, or the decimal string
of an expiry time. -/
inductive StoredStr (V : Type) where
  | item (data : V) (timestamp : Nat)
  | numStr (n : Nat)
deriving DecidableEq

/-- The AsyncStorage key-value store: string keys to optional stored
strings. -/
abbrev Store (V : Type) : Type := List Char → Option (StoredStr V)

/-- The empty store. -/
def emptyStore {V : Type} : Store V := fun _ => none

/-- AsyncStorage.setItem. -/
def setStore {V : Type} (s : Store V) (k : List Char) (v : StoredStr V) : Store V :=
  fun k2 => if k2 = k then some v else s k2

/-- AsyncStorage.multiRemove. -/
def removeKeys {V : Type} (s : Store V) (ks : List (List Char)) : Store V :=
  fun k2 => if k2 ∈ ks then none else s k2

/-- The data sub-key: CACHE_PREFIX ++ key with CACHE_PREFIX equal to the
string movie_cache_. -/
def dataKey (key : List Char) : List Char := str "movie_cache_" ++ key

/-- The expiry sub-key: CACHE_EXPIRY_PREFIX ++ key with CACHE_EXPIRY_PREFIX
equal to the string movie_cache_expiry_. -/
def expiryKey (key : List Char) : List Char := str "movie_cache_expiry_" ++ key

/-- JS parseInt applied to a stored value string: a decimal numeral parses
to its value, a JSON-object string (first character a brace) parses to
NaN, modelled as none. -/
def parseIntJS {V : Type} : StoredStr V → Option Nat
  | .numStr n => some n
  | .item _ _ => none

/-- JS comparison now > e where e may be NaN: any comparison with NaN is
false. -/
def gtNaN (now : Nat) : Option Nat → Bool
  | some e => decide (e < now)
  | none => false

/-- JS comparison now < e where e may be NaN. -/
def ltNaN (now : Nat) : Option Nat → Bool
  | some e => decide (now < e)
  | none => false

/-- JSON.parse of the data value string followed by the .data projection:
a serialized cache item yields its data field; a numeral parses to a bare
number, whose .data projection is undefined, modelled as none. -/
def parseData {V : Type} : StoredStr V → Option V
  | .item v _ => some v
  | .numStr _ => none

namespace CacheService

/-- CacheService.set: writes the serialized cache item under the data
sub-key and the expiry time now + duration under the expiry sub-key, in
the order of the multiSet pair list. -/
def set {V : Type} (key : List Char) (data : V) (duration now : Nat) (s : Store V) : Store V :=
  setStore (setStore s (dataKey key) (.item data now)) (expiryKey key) (.numStr (now + duration))

/-- CacheService.get: multiGet of the two sub-keys; absent if either is
missing; if Date.now() > expiry, multiRemove both sub-keys and return
null; otherwise JSON.parse the data string and return its data field.
Returns the result together with the store left behind. -/
def get {V : Type} (key : List Char) (now : Nat) (s : Store V) : Option V × Store V :=
  match s (dataKey key), s (expiryKey key) with
  | some cd, some et =>
      if gtNaN now (parseIntJS et) then
        (none, removeKeys s [dataKey key, expiryKey key])
      else
        (parseData cd, s)
  | _, _ => (none, s)

/-- CacheService.remove: multiRemove of both sub-keys. -/
def remove {V : Type} (key : List Char) (s : Store V) : Store V :=
  removeKeys s [dataKey key, expiryKey key]

/-- CacheService.isValid: reads only the expiry sub-key; false if absent,
otherwise Date.now() < parseInt(expiry). -/
def isValid {V : Type} (key : List Char) (now : Nat) (s : Store V) : Bool :=
  match s (expiryKey key) with
  | none => false
  | some et => ltNaN now (parseIntJS et)

end CacheService

/- Key-disjointness lemmas for the two sub-key namespaces. -/

theorem length_str_movie_cache : (str "movie_cache_").length = 12 := by decide

theorem length_str_movie_cache_expiry : (str "movie_cache_expiry_").length = 19 := by decide

theorem dataKey_ne_expiryKey (k : List Char) : dataKey k ≠ expiryKey k := by
  intro h
  have hlen := congrArg List.length h
  simp only [dataKey, expiryKey, List.length_append,
    length_str_movie_cache, length_str_movie_cache_expiry] at hlen
  omega

theorem dataKey_inj {k1 k2 : List Char} (h : dataKey k1 = dataKey k2) : k1 = k2 :=
  List.append_cancel_left h

theorem expiryKey_inj {k1 k2 : List Char} (h : expiryKey k1 = expiryKey k2) : k1 = k2 :=
  List.append_cancel_left h

theorem expiry_split : str "movie_cache_expiry_" = str "movie_cache_" ++ str "expiry_" := by
  decide

theorem dataKey_eq_expiryKey_iff (k1 k2 : List Char) :
    dataKey k1 = expiryKey k2 ↔ k1 = str "expiry_" ++ k2 := by
  constructor
  · intro h
    rw [dataKey, expiryKey, expiry_split, List.append_assoc] at h
    exact List.append_cancel_left h
  · intro h
    rw [dataKey, expiryKey, expiry_split, List.append_assoc, h]

/- ------------------------------------------------------------------
   Claims C1, C5, C9, C10: CacheService
   ------------------------------------------------------------------ -/

/-- C1 (amended): for a well-formed cached entry with stored expiry e, get
returns the payload iff now ≤ e (the code treats an entry as expired only
when Date.now() > expiry, so the entry is still served at now = e); a
non-expired read leaves the store unchanged (no refresh); once e < now,
get returns absent, removes both sub-keys on that access, and any
subsequent get for the key returns absent. -/
theorem cache_get_valid_iff_now_le_expiry {V : Type} (k : List Char) (v : V)
    (ts e now now2 : Nat) (s : Store V)
    (hd : s (dataKey k) = some (.item v ts))
    (he : s (expiryKey k) = some (.numStr e)) :
    ((CacheService.get k now s).1 = some v ↔ now ≤ e)
    ∧ (now ≤ e → (CacheService.get k now s).2 = s)
    ∧ (e < now →
        (CacheService.get k now s).1 = none
        ∧ (CacheService.get k now s).2 (dataKey k) = none
        ∧ (CacheService.get k now s).2 (expiryKey k) = none
        ∧ (CacheService.get k now2 (CacheService.get k now s).2).1 = none) := by
  rcases Nat.lt_or_ge e now with hlt | hge
  · have hg : CacheService.get k now s =
        (none, removeKeys s [dataKey k, expiryKey k]) := by
      simp [CacheService.get, hd, he, gtNaN, parseIntJS, hlt]
    refine ⟨?_, ?_, ?_⟩
    · rw [hg]; simp; omega
    · intro hle; omega
    · intro _
      refine ⟨by rw [hg], ?_, ?_, ?_⟩
      · rw [hg]; simp [removeKeys]
      · rw [hg]; simp [removeKeys]
      · rw [hg]
        have h2 : removeKeys s [dataKey k, expiryKey k] (dataKey k) = none := by
          simp [removeKeys]
        simp [CacheService.get, h2]
  · have hg : CacheService.get k now s = (some v, s) := by
      simp [CacheService.get, hd, he, gtNaN, parseIntJS, parseData, Nat.not_lt.mpr hge]
    refine ⟨?_, ?_, ?_⟩
    · rw [hg]; simp; omega
    · intro _; rw [hg]
    · intro hlt; omega

/-- C1 witness: entry set at time 0 with ttl 10 (expiry 10), read at time
11: expired, get returns absent. -/
theorem cache_get_valid_iff_now_le_expiry_witness :
    (CacheService.set (str "k") (5 : Nat) 10 0 emptyStore) (dataKey (str "k"))
      = some (.item 5 0)
    ∧ (CacheService.set (str "k") (5 : Nat) 10 0 emptyStore) (expiryKey (str "k"))
      = some (.numStr 10)
    ∧ (CacheService.get (str "k") 11
        (CacheService.set (str "k") (5 : Nat) 10 0 emptyStore)).1 = none :=
  ⟨by decide, by decide,
    ((cache_get_valid_iff_now_le_expiry (str "k") 5 0 10 11 12
      (CacheService.set (str "k") (5 : Nat) 10 0 emptyStore)
      (by decide) (by decide)).2.2 (by decide)).1⟩

/-- C1 counterexample: the claim says get returns the payload only while
now < expiresAt; for an entry set at time 0 with ttl 10, expiresAt is 10,
and at now = 10 the payload is still returned. -/
theorem cache_get_at_expiry_counterexample :
    ¬ (10 < 0 + 10)
    ∧ (CacheService.get (str "k") 10
        (CacheService.set (str "k") (5 : Nat) 10 0 emptyStore)).1 = some 5 := by
  decide

/-- C5: get immediately after set(key, v, ttl) with ttl > 0 returns v, for
every key, value and prior store state. -/
theorem cache_set_get_roundtrip {V : Type} (k : List Char) (v : V) (ttl now : Nat)
    (s : Store V) (h : 0 < ttl) :
    (CacheService.get k now (CacheService.set k v ttl now s)).1 = some v := by
  have hd : (CacheService.set k v ttl now s) (dataKey k) = some (.item v now) := by
    simp [CacheService.set, setStore, dataKey_ne_expiryKey k]
  have he : (CacheService.set k v ttl now s) (expiryKey k) = some (.numStr (now + ttl)) := by
    simp [CacheService.set, setStore]
  have hng : gtNaN now (some (now + ttl)) = false := by
    simp [gtNaN]
  simp [CacheService.get, hd, he, parseIntJS, hng, parseData]

/-- C5 witness at key g, value 42, ttl 10, time 7. -/
theorem cache_set_get_roundtrip_witness :
    0 < 10
    ∧ (CacheService.get (str "g") 7
        (CacheService.set (str "g") (42 : Nat) 10 7 emptyStore)).1 = some 42 :=
  ⟨by decide, cache_set_get_roundtrip (str "g") 42 10 7 emptyStore (by decide)⟩

/-- C9 (amended): for a well-formed entry with stored expiry e, isValid is
true iff now < e, and isValid = true implies get returns the payload; but
the converse fails at the boundary, since get returns the payload iff
now ≤ e. -/
theorem isValid_characterization {V : Type} (k : List Char) (v : V)
    (ts e now : Nat) (s : Store V)
    (hd : s (dataKey k) = some (.item v ts))
    (he : s (expiryKey k) = some (.numStr e)) :
    (CacheService.isValid k now s = true ↔ now < e)
    ∧ (CacheService.isValid k now s = true → (CacheService.get k now s).1 = some v)
    ∧ ((CacheService.get k now s).1 = some v ↔ now ≤ e) := by
  have hv : CacheService.isValid k now s = decide (now < e) := by
    simp [CacheService.isValid, he, ltNaN, parseIntJS]
  have hiff := (cache_get_valid_iff_now_le_expiry k v ts e now now s hd he).1
  refine ⟨by rw [hv]; simp, ?_, hiff⟩
  intro hval
  rw [hv] at hval
  exact hiff.mpr (Nat.le_of_lt (by simpa using hval))

/-- C9 witness: entry with expiry 10 read at time 3: isValid is true and
get returns the payload. -/
theorem isValid_characterization_witness :
    (CacheService.set (str "k") (5 : Nat) 10 0 emptyStore) (dataKey (str "k"))
      = some (.item 5 0)
    ∧ (CacheService.get (str "k") 3
        (CacheService.set (str "k") (5 : Nat) 10 0 emptyStore)).1 = some 5 :=
  ⟨by decide,
    (isValid_characterization (str "k") 5 0 10 3
      (CacheService.set (str "k") (5 : Nat) 10 0 emptyStore)
      (by decide) (by decide)).2.1 (by decide)⟩

/-- C9 counterexample: at now = expiry (entry set at 0 with ttl 10, read
at 10), isValid returns false while get at the same instant returns the
payload, so isValid is not equivalent to get returning a value. -/
theorem isValid_get_disagree_counterexample :
    CacheService.isValid (str "k") 10
      (CacheService.set (str "k") (5 : Nat) 10 0 emptyStore) = false
    ∧ (CacheService.get (str "k") 10
        (CacheService.set (str "k") (5 : Nat) 10 0 emptyStore)).1 = some 5 := by
  decide

/-- C10 counterexample: the namespaces collide. set on logical key
expiry_g writes its data sub-key at the physical key movie_cache_expiry_g,
which is the expiry sub-key of the distinct logical key g; the write flips
isValid for g from true to false. -/
theorem cache_key_collision_counterexample :
    str "expiry_g" ≠ str "g"
    ∧ CacheService.isValid (str "g") 1
        (CacheService.set (str "g") (7 : Nat) 100 0 emptyStore) = true
    ∧ CacheService.isValid (str "g") 1
        (CacheService.set (str "expiry_g") (7 : Nat) 100 1
          (CacheService.set (str "g") (7 : Nat) 100 0 emptyStore)) = false := by
  decide

/-- C10 (amended): set on k1 leaves get and isValid on k2 unchanged
provided k1 ≠ k2 and additionally neither key is the other with the
string expiry_ prepended; without that extra condition the data sub-key of
one logical key can be the expiry sub-key of the other. -/
theorem cache_set_frame {V : Type} (k1 k2 : List Char) (v : V) (ttl now now2 : Nat)
    (s : Store V) (h12 : k1 ≠ k2)
    (hA : k1 ≠ str "expiry_" ++ k2) (hB : k2 ≠ str "expiry_" ++ k1) :
    (CacheService.get k2 now2 (CacheService.set k1 v ttl now s)).1
      = (CacheService.get k2 now2 s).1
    ∧ CacheService.isValid k2 now2 (CacheService.set k1 v ttl now s)
      = CacheService.isValid k2 now2 s := by
  have hdd : dataKey k2 ≠ dataKey k1 := fun h => h12 (dataKey_inj h).symm
  have hee : expiryKey k2 ≠ expiryKey k1 := fun h => h12 (expiryKey_inj h).symm
  have hde : dataKey k2 ≠ expiryKey k1 := fun h =>
    hB ((dataKey_eq_expiryKey_iff k2 k1).1 h)
  have hed : expiryKey k2 ≠ dataKey k1 := fun h =>
    hA ((dataKey_eq_expiryKey_iff k1 k2).1 h.symm)
  have hd2 : (CacheService.set k1 v ttl now s) (dataKey k2) = s (dataKey k2) := by
    simp [CacheService.set, setStore, hde, hdd]
  have he2 : (CacheService.set k1 v ttl now s) (expiryKey k2) = s (expiryKey k2) := by
    simp [CacheService.set, setStore, hee, hed]
  constructor
  · unfold CacheService.get
    rw [hd2, he2]
    cases hsd : s (dataKey k2) with
    | none => rfl
    | some cd =>
      cases hse : s (expiryKey k2) with
      | none => rfl
      | some et =>
        by_cases hg : gtNaN now2 (parseIntJS et) = true
        · simp [hg]
        · simp [hg]
  · unfold CacheService.isValid
    rw [he2]

/-- C10 witness at keys a and b. -/
theorem cache_set_frame_witness :
    str "a" ≠ str "b"
    ∧ str "a" ≠ str "expiry_" ++ str "b"
    ∧ str "b" ≠ str "expiry_" ++ str "a"
    ∧ CacheService.isValid (str "b") 0
        (CacheService.set (str "a") (0 : Nat) 1 0 emptyStore)
      = CacheService.isValid (str "b") 0 (emptyStore (V := Nat)) :=
  ⟨by decide, by decide, by decide,
    (cache_set_frame (str "a") (str "b") (0 : Nat) 1 0 0 emptyStore
      (by decide) (by decide) (by decide)).2⟩

/- ------------------------------------------------------------------
   Resilient API client retry interceptor (src/api/tmdb.ts, lines 35-81)

   One logical request is a sequence of attempts; attempt i is the request
   issued with _retryCount = i.  Outcome records what axios observed for
   one attempt: a successful response, or an AxiosError whose response
   field is absent (network failure or timeout) or carries a status code.
   ------------------------------------------------------------------ -/

/-- MAX_RETRIES from the source. -/
def MAX_RETRIES : Nat := 2

/-- Result of one attempt: a response, or an error with an optional HTTP
status (none models no response received at all). -/
inductive Outcome (α : Type) where
  | ok (payload : α)
  | fail (response : Option Nat)
deriving DecidableEq

/-- The retry guard of the error interceptor:
not error.response, or a status in [500, 600). -/
def retryEligible : Option Nat → Bool
  | none => true
  | some status => decide (500 ≤ status) && decide (status < 600)

/-- Terminal result of a logical request: the payload or the terminal
error, together with the number of retries performed (the final
_retryCount) and the list of backoff delays waited, in order. -/
inductive RetryResult (α : Type) where
  | success (payload : α) (retryCount : Nat) (delays : List Nat)
  | failure (response : Option Nat) (retryCount : Nat) (delays : List Nat)
deriving DecidableEq

/-- Number of retries performed. -/
def retriesOf {α : Type} : RetryResult α → Nat
  | .success _ n _ => n
  | .failure _ n _ => n

/-- Backoff delays waited, in order. -/
def delaysOf {α : Type} : RetryResult α → List Nat
  | .success _ _ d => d
  | .failure _ _ d => d

/-- The retry loop of the response interceptor.  count is _retryCount;
remaining is MAX_RETRIES - _retryCount, carried separately so that the
guard _retryCount < MAX_RETRIES is the structural test remaining ≠ 0.  On
a retry-eligible failure below the limit the counter is incremented, a
delay of 1000 * counter milliseconds is waited, and the identical request
is reissued; otherwise the error is surfaced. -/
def interceptorRun {α : Type} (outcomes : Nat → Outcome α) (count : Nat) :
    Nat → List Nat → RetryResult α
  | remaining, delays =>
    match outcomes count with
    | .ok a => .success a count delays
    | .fail resp =>
      if retryEligible resp then
        match remaining with
        | 0 => .failure resp count delays
        | r + 1 => interceptorRun outcomes (count + 1) r (delays ++ [1000 * (count + 1)])
      else .failure resp count delays

/-- One logical request: attempt 0 starts with _retryCount = 0. -/
def runRequest {α : Type} (outcomes : Nat → Outcome α) : RetryResult α :=
  interceptorRun outcomes 0 MAX_RETRIES []

/-- One-step unfolding of the retry loop. -/
theorem interceptorRun_unfold {α : Type} (outcomes : Nat → Outcome α)
    (count remaining : Nat) (delays : List Nat) :
    interceptorRun outcomes count remaining delays =
      match outcomes count with
      | .ok a => .success a count delays
      | .fail resp =>
        if retryEligible resp then
          match remaining with
          | 0 => .failure resp count delays
          | r + 1 => interceptorRun outcomes (count + 1) r (delays ++ [1000 * (count + 1)])
        else .failure resp count delays := by
  rw [interceptorRun.eq_def]

/-- Retries performed by the loop never exceed count + remaining. -/
theorem interceptorRun_retries_le {α : Type} (outcomes : Nat → Outcome α) :
    ∀ remaining count delays,
      retriesOf (interceptorRun outcomes count remaining delays) ≤ count + remaining := by
  intro remaining
  induction remaining with
  | zero =>
    intro count delays
    rw [interceptorRun_unfold]
    cases h0 : outcomes count with
    | ok a => simp [retriesOf]
    | fail r =>
      by_cases e : retryEligible r = true
      · simp [e, retriesOf]
      · simp [e, retriesOf]
  | succ r ih =>
    intro count delays
    rw [interceptorRun_unfold]
    cases h0 : outcomes count with
    | ok a => simp [retriesOf]
    | fail resp =>
      by_cases e : retryEligible resp = true
      · have hih := ih (count + 1) (delays ++ [1000 * (count + 1)])
        simp only [e, if_true]
        omega
      · simp [e, retriesOf]

/- ------------------------------------------------------------------
   Claims C2, C3, C4: retry policy
   ------------------------------------------------------------------ -/

/-- C2: a failure is retry-eligible iff no response was received or the
status lies in [500, 599]; a status in [400, 499] is not eligible, and a
first attempt failing with such a status is surfaced unchanged with zero
retries and no backoff. -/
theorem client_errors_never_retried {α : Type} (outcomes : Nat → Outcome α)
    (s t : Nat) (h4 : 400 ≤ s) (h5 : s ≤ 499)
    (h0 : outcomes 0 = .fail (some s)) :
    retryEligible none = true
    ∧ (retryEligible (some t) = true ↔ 500 ≤ t ∧ t ≤ 599)
    ∧ retryEligible (some s) = false
    ∧ runRequest outcomes = .failure (some s) 0 [] := by
  have hel : retryEligible (some s) = false := by
    simp [retryEligible]; omega
  refine ⟨rfl, ?_, hel, ?_⟩
  · simp [retryEligible]; omega
  · simp [runRequest, MAX_RETRIES, interceptorRun, h0, hel]

/-- C2 witness: every attempt fails with a 404; the request surfaces the
404 with zero retries. -/
theorem client_errors_never_retried_witness :
    (400 : Nat) ≤ 404 ∧ (404 : Nat) ≤ 499
    ∧ (fun _ : Nat => (Outcome.fail (some 404) : Outcome Nat)) 0
        = Outcome.fail (some 404)
    ∧ runRequest (fun _ : Nat => (Outcome.fail (some 404) : Outcome Nat))
        = .failure (some 404) 0 [] :=
  ⟨by decide, by decide, rfl,
    (client_errors_never_retried (fun _ => Outcome.fail (some 404)) 404 500
      (by decide) (by decide) rfl).2.2.2⟩

/-- C3: the retry process terminates with the counter never exceeding
MAX_RETRIES = 2 retries for one logical request, and a request whose
attempts all fail with no response performs exactly 2 retries and then
surfaces the terminal network error. -/
theorem retries_bounded {α : Type} (outcomes : Nat → Outcome α) :
    retriesOf (runRequest outcomes) ≤ MAX_RETRIES
    ∧ runRequest (fun _ : Nat => (Outcome.fail none : Outcome Nat))
        = .failure none 2 [1000, 2000] := by
  constructor
  · have := interceptorRun_retries_le outcomes MAX_RETRIES 0 []
    simpa [runRequest] using this
  · decide

/-- C4: the backoff is linear, 1000 ms times the retry counter: for every
request the delays waited are exactly 1000 * 1, ..., 1000 * r where r is
the number of retries performed; and a request failing twice with a 503
then succeeding returns the payload after exactly 2 retries with delays
1000 ms then 2000 ms. -/
theorem backoff_linear {α : Type} (outcomes : Nat → Outcome α) :
    delaysOf (runRequest outcomes)
      = (List.range' 1 (retriesOf (runRequest outcomes))).map (fun k => 1000 * k)
    ∧ runRequest (fun i : Nat =>
        if i < 2 then (Outcome.fail (some 503) : Outcome Nat) else Outcome.ok 42)
      = .success 42 2 [1000, 2000] := by
  constructor
  · unfold runRequest MAX_RETRIES
    cases h0 : outcomes 0 with
    | ok a => simp [interceptorRun, h0, retriesOf, delaysOf]
    | fail r0 =>
      by_cases e0 : retryEligible r0 = true
      · cases h1 : outcomes 1 with
        | ok a =>
          simp [interceptorRun, h0, h1, e0, retriesOf, delaysOf, List.range']
        | fail r1 =>
          by_cases e1 : retryEligible r1 = true
          · cases h2 : outcomes 2 with
            | ok a =>
              simp [interceptorRun, h0, h1, h2, e0, e1, retriesOf, delaysOf, List.range']
            | fail r2 =>
              by_cases e2 : retryEligible r2 = true
              · simp [interceptorRun, h0, h1, h2, e0, e1, e2, retriesOf, delaysOf,
                  List.range']
              · simp [interceptorRun, h0, h1, h2, e0, e1, e2, retriesOf, delaysOf,
                  List.range']
          · simp [interceptorRun, h0, h1, e0, e1, retriesOf, delaysOf, List.range']
      · simp [interceptorRun, h0, e0, retriesOf, delaysOf]
  · decide

/- ------------------------------------------------------------------
   SearchHistoryService (src/unnamed/part_001, lines 1-98)

   The history is one JSON blob under the key search_history; its state is
   modelled as the parsed list when present.  JS Array.prototype.sort is
   stable, so the comparator (a, b) => b.timestamp - a.timestamp yields the
   unique stable descending order, computed here by a stable insertion
   sort.  toLowerCase and trim are modelled on the ASCII range.
   ------------------------------------------------------------------ -/

/-- MAX_HISTORY_ITEMS from the source. -/
def MAX_HISTORY_ITEMS : Nat := 10

/-- One history entry: the trimmed original-case query and its
timestamp. -/
structure SearchHistoryItem where
  query : List Char
  timestamp : Nat
deriving DecidableEq

/-- String.prototype.toLowerCase, on the ASCII range: map each character
A-Z to its lowercase form. -/
def toLowerStr (l : List Char) : List Char := l.map Char.toLower

/-- A JS whitespace character, on the ASCII range. -/
def isJsWS (c : Char) : Bool := c = ' ' || c = '\t' || c = '\n' || c = '\r'

/-- String.prototype.trim: drop leading and trailing whitespace. -/
def trimStr (l : List Char) : List Char :=
  ((l.dropWhile isJsWS).reverse.dropWhile isJsWS).reverse

/-- Descending stable insertion: the new element is placed before the
first element with a strictly smaller timestamp. -/
def insertDesc (a : SearchHistoryItem) : List SearchHistoryItem → List SearchHistoryItem
  | [] => [a]
  | b :: l => if b.timestamp ≤ a.timestamp then a :: b :: l else b :: insertDesc a l

/-- The stable sort by descending timestamp performed inside getHistory:
history.sort((a, b) => b.timestamp - a.timestamp). -/
def sortDesc (l : List SearchHistoryItem) : List SearchHistoryItem :=
  l.foldr insertDesc []

namespace SearchHistoryService

/-- SearchHistoryService.getHistory: the parsed blob sorted newest first,
or the empty list when the blob is absent. -/
def getHistory : Option (List SearchHistoryItem) → List SearchHistoryItem
  | none => []
  | some l => sortDesc l

/-- SearchHistoryService.addToHistory: no-op on a whitespace-only query;
otherwise drop every entry whose lowercased query equals the lowercased
trimmed query, prepend the new entry with the trimmed original-case text,
and keep only the first MAX_HISTORY_ITEMS entries. -/
def addToHistory (query : List Char) (now : Nat)
    (s : Option (List SearchHistoryItem)) : Option (List SearchHistoryItem) :=
  if trimStr query = [] then s
  else
    some ((({ query := trimStr query, timestamp := now } : SearchHistoryItem) ::
      (getHistory s).filter
        (fun it => decide (toLowerStr it.query ≠ toLowerStr (trimStr query)))).take
      MAX_HISTORY_ITEMS)

/-- SearchHistoryService.removeFromHistory: keep only the entries whose
lowercased query differs from the lowercased argument. -/
def removeFromHistory (query : List Char)
    (s : Option (List SearchHistoryItem)) : Option (List SearchHistoryItem) :=
  some ((getHistory s).filter
    (fun it => decide (toLowerStr it.query ≠ toLowerStr query)))

/-- SearchHistoryService.clearHistory: AsyncStorage.removeItem of the
blob. -/
def clearHistory (_ : Option (List SearchHistoryItem)) :
    Option (List SearchHistoryItem) := none

end SearchHistoryService

/-- The stored-blob invariant of the claim: at most 10 entries, and at
most one entry per distinct lowercase query value. -/
def histInvariant (l : List SearchHistoryItem) : Prop :=
  l.length ≤ MAX_HISTORY_ITEMS
  ∧ l.Pairwise (fun a b => toLowerStr a.query ≠ toLowerStr b.query)

/-- The invariant lifted to the optional stored blob. -/
def storedInvariant : Option (List SearchHistoryItem) → Prop
  | none => True
  | some l => histInvariant l

instance : ∀ s, Decidable (storedInvariant s) := by
  intro s
  cases s with
  | none => exact .isTrue trivial
  | some l => exact inferInstanceAs (Decidable (_ ∧ _))

theorem insertDesc_perm (a : SearchHistoryItem) (l : List SearchHistoryItem) :
    List.Perm (insertDesc a l) (a :: l) := by
  induction l with
  | nil => exact List.Perm.refl _
  | cons b t ih =>
    by_cases h : b.timestamp ≤ a.timestamp
    · simp [insertDesc, h]
    · simp only [insertDesc, h, if_false]
      exact (ih.cons b).trans (List.Perm.swap a b t)

theorem sortDesc_perm (l : List SearchHistoryItem) : List.Perm (sortDesc l) l := by
  induction l with
  | nil => exact List.Perm.refl _
  | cons a t ih => exact (insertDesc_perm a (sortDesc t)).trans (ih.cons a)

theorem insertDesc_sorted (a : SearchHistoryItem) (l : List SearchHistoryItem)
    (h : l.Sorted (fun x y => y.timestamp ≤ x.timestamp)) :
    (insertDesc a l).Sorted (fun x y => y.timestamp ≤ x.timestamp) := by
  induction l with
  | nil => simp [insertDesc]
  | cons b t ih =>
    rw [List.sorted_cons] at h
    by_cases hb : b.timestamp ≤ a.timestamp
    · simp only [insertDesc, hb, if_true]
      rw [List.sorted_cons]
      refine ⟨?_, List.sorted_cons.mpr h⟩
      intro x hx
      rcases List.mem_cons.mp hx with hxb | hxt
      · subst hxb; exact hb
      · exact le_trans (h.1 x hxt) hb
    · simp only [insertDesc, hb, if_false]
      rw [List.sorted_cons]
      refine ⟨?_, ih h.2⟩
      intro x hx
      rcases List.mem_cons.mp ((insertDesc_perm a t).mem_iff.mp hx) with hxa | hxt
      · subst hxa; omega
      · exact h.1 x hxt

theorem sortDesc_sorted (l : List SearchHistoryItem) :
    (sortDesc l).Sorted (fun x y => y.timestamp ≤ x.timestamp) := by
  induction l with
  | nil => simp [sortDesc]
  | cons a t ih => exact insertDesc_sorted a (sortDesc t) ih

theorem queryNe_symmetric :
    Symmetric (fun a b : SearchHistoryItem => toLowerStr a.query ≠ toLowerStr b.query) :=
  fun _ _ hab => Ne.symm hab

theorem getHistory_pairwise (s : Option (List SearchHistoryItem))
    (h : storedInvariant s) :
    (SearchHistoryService.getHistory s).Pairwise
      (fun a b => toLowerStr a.query ≠ toLowerStr b.query) := by
  cases s with
  | none => simp [SearchHistoryService.getHistory]
  | some l => exact ((sortDesc_perm l).pairwise_iff (fun hab => Ne.symm hab)).mpr h.2

theorem getHistory_length (s : Option (List SearchHistoryItem))
    (h : storedInvariant s) :
    (SearchHistoryService.getHistory s).length ≤ MAX_HISTORY_ITEMS := by
  cases s with
  | none => simp [SearchHistoryService.getHistory, MAX_HISTORY_ITEMS]
  | some l =>
    have hlen := (sortDesc_perm l).length_eq
    have hl : l.length ≤ MAX_HISTORY_ITEMS := h.1
    simp only [SearchHistoryService.getHistory]
    omega

theorem addToHistory_invariant (q : List Char) (now : Nat)
    (s : Option (List SearchHistoryItem)) (h : storedInvariant s) :
    storedInvariant (SearchHistoryService.addToHistory q now s) := by
  unfold SearchHistoryService.addToHistory
  by_cases hq : trimStr q = []
  · simpa [hq] using h
  · simp only [hq, if_false]
    show histInvariant _
    constructor
    · exact List.length_take_le _ _
    · apply List.Pairwise.sublist (List.take_sublist _ _)
      rw [List.pairwise_cons]
      constructor
      · intro b hb
        have hne := of_decide_eq_true (List.mem_filter.mp hb).2
        exact Ne.symm hne
      · exact (getHistory_pairwise s h).filter _

theorem removeFromHistory_invariant (q : List Char)
    (s : Option (List SearchHistoryItem)) (h : storedInvariant s) :
    storedInvariant (SearchHistoryService.removeFromHistory q s) := by
  unfold SearchHistoryService.removeFromHistory
  show histInvariant _
  exact ⟨le_trans (List.length_filter_le _ _) (getHistory_length s h),
    (getHistory_pairwise s h).filter _⟩

/-- Folding addToHistory over a list of query and timestamp pairs. -/
def addManyQueries (qs : List (List Char × Nat))
    (s : Option (List SearchHistoryItem)) : Option (List SearchHistoryItem) :=
  qs.foldl (fun acc p => SearchHistoryService.addToHistory p.1 p.2 acc) s

/-- Twelve distinct queries submitted at times 1 through 12. -/
def twelveQueries : List (List Char × Nat) :=
  [(str "a", 1), (str "b", 2), (str "c", 3), (str "d", 4), (str "e", 5),
   (str "f", 6), (str "g", 7), (str "h", 8), (str "i", 9), (str "j", 10),
   (str "k", 11), (str "l", 12)]

/- ------------------------------------------------------------------
   Claims C6, C7: SearchHistoryService
   ------------------------------------------------------------------ -/

/-- C6: addToHistory, removeFromHistory and clearHistory preserve the
history invariant (at most 10 entries, at most one entry per distinct
lowercase query); the materialized list is always sorted newest first;
and inserting 12 distinct queries leaves exactly the 10 most recent, the
oldest two evicted. -/
theorem history_operations_preserve_invariant
    (s : Option (List SearchHistoryItem)) (q q2 : List Char) (now : Nat)
    (h : storedInvariant s) :
    storedInvariant (SearchHistoryService.addToHistory q now s)
    ∧ storedInvariant (SearchHistoryService.removeFromHistory q2 s)
    ∧ storedInvariant (SearchHistoryService.clearHistory s)
    ∧ (SearchHistoryService.getHistory s).Sorted
        (fun a b => b.timestamp ≤ a.timestamp)
    ∧ SearchHistoryService.getHistory (addManyQueries twelveQueries none)
        = ([⟨str "l", 12⟩, ⟨str "k", 11⟩, ⟨str "j", 10⟩, ⟨str "i", 9⟩,
            ⟨str "h", 8⟩, ⟨str "g", 7⟩, ⟨str "f", 6⟩, ⟨str "e", 5⟩,
            ⟨str "d", 4⟩, ⟨str "c", 3⟩] : List SearchHistoryItem) := by
  refine ⟨addToHistory_invariant q now s h, removeFromHistory_invariant q2 s h,
    trivial, ?_, by decide⟩
  cases s with
  | none => simp [SearchHistoryService.getHistory]
  | some l => exact sortDesc_sorted l

/-- C6 witness at a one-entry store. -/
theorem history_operations_preserve_invariant_witness :
    storedInvariant (some ([⟨str "x", 5⟩] : List SearchHistoryItem))
    ∧ storedInvariant (SearchHistoryService.addToHistory (str "Movie") 6
        (some ([⟨str "x", 5⟩] : List SearchHistoryItem))) :=
  ⟨by decide,
    (history_operations_preserve_invariant
      (some ([⟨str "x", 5⟩] : List SearchHistoryItem))
      (str "Movie") (str "x") 6 (by decide)).1⟩

/-- C7: after addToHistory calls for Dune at time 1, dune at time 2 and
Arrival at time 3, getHistory yields exactly two entries, newest first,
with the later casing dune winning for the deduplicated entry. -/
theorem history_resubmission_casing :
    SearchHistoryService.getHistory
      (SearchHistoryService.addToHistory (str "Arrival") 3
        (SearchHistoryService.addToHistory (str "dune") 2
          (SearchHistoryService.addToHistory (str "Dune") 1 none)))
      = ([⟨str "Arrival", 3⟩, ⟨str "dune", 2⟩] : List SearchHistoryItem) := by
  decide

/- ------------------------------------------------------------------
   getGenres query function (src/api/tmdb.ts, lines 131-152)

   The world is the cache store together with the number of network calls
   issued so far.  getGenres takes the genres payload the network would
   return on this call; the genres value extracted from a response is a JS
   array and arrays are truthy, so the hit test if (cached) holds exactly
   when the cache returned a value.
   ------------------------------------------------------------------ -/

/-- The cache store plus a count of network requests issued. -/
structure World (V : Type) where
  store : Store V
  networkCalls : Nat

/-- The 24-hour TTL used for the genres list. -/
def GENRES_TTL : Nat := 1000 * 60 * 60 * 24

/-- getGenres: check the cache under the key genres_list; on a hit return
the cached value with no network call; on a miss issue the request, cache
the extracted genres with the 24-hour TTL, and return them. -/
def getGenres {V : Type} (resp : V) (now : Nat) (w : World V) : V × World V :=
  match CacheService.get (str "genres_list") now w.store with
  | (some cached, s2) => (cached, ⟨s2, w.networkCalls⟩)
  | (none, s2) =>
      (resp, ⟨CacheService.set (str "genres_list") resp GENRES_TTL now s2,
        w.networkCalls + 1⟩)

/- ------------------------------------------------------------------
   Claim C8: cache hits issue no network call
   ------------------------------------------------------------------ -/

/-- C8: starting from an empty cache, the first getGenres call issues one
network call and writes its result to the cache before returning it; a
second call within the TTL window returns the first result from the cache
with no further network call; a third call after the TTL has expired
issues a second network call. -/
theorem getGenres_network_calls {V : Type} (v1 v2 v3 : V) (t0 t1 t2 : Nat)
    (h01 : t0 ≤ t1) (h1 : t1 ≤ t0 + GENRES_TTL) (h2 : t0 + GENRES_TTL < t2) :
    (getGenres v1 t0 (⟨emptyStore, 0⟩ : World V)).1 = v1
    ∧ (getGenres v1 t0 (⟨emptyStore, 0⟩ : World V)).2.networkCalls = 1
    ∧ (CacheService.get (str "genres_list") t0
        (getGenres v1 t0 (⟨emptyStore, 0⟩ : World V)).2.store).1 = some v1
    ∧ (getGenres v2 t1 (getGenres v1 t0 (⟨emptyStore, 0⟩ : World V)).2).1 = v1
    ∧ (getGenres v2 t1
        (getGenres v1 t0 (⟨emptyStore, 0⟩ : World V)).2).2.networkCalls = 1
    ∧ (getGenres v3 t2
        (getGenres v2 t1
          (getGenres v1 t0 (⟨emptyStore, 0⟩ : World V)).2).2).2.networkCalls = 2 := by
  have hmiss : CacheService.get (str "genres_list") t0 (emptyStore (V := V))
      = (none, emptyStore) := by
    simp [CacheService.get, emptyStore]
  have hw1 : getGenres v1 t0 (⟨emptyStore, 0⟩ : World V)
      = (v1, ⟨CacheService.set (str "genres_list") v1 GENRES_TTL t0 emptyStore, 1⟩) := by
    simp [getGenres, hmiss]
  set s1 : Store V := CacheService.set (str "genres_list") v1 GENRES_TTL t0 emptyStore
    with hs1
  have hd1 : s1 (dataKey (str "genres_list")) = some (.item v1 t0) := by
    rw [hs1]
    simp [CacheService.set, setStore, dataKey_ne_expiryKey (str "genres_list")]
  have he1 : s1 (expiryKey (str "genres_list")) = some (.numStr (t0 + GENRES_TTL)) := by
    rw [hs1]
    simp [CacheService.set, setStore]
  have hget0 : (CacheService.get (str "genres_list") t0 s1).1 = some v1 :=
    (cache_get_valid_iff_now_le_expiry (str "genres_list") v1 t0 (t0 + GENRES_TTL)
      t0 t0 s1 hd1 he1).1.mpr (Nat.le_add_right t0 GENRES_TTL)
  have hfresh1 : CacheService.get (str "genres_list") t1 s1 = (some v1, s1) := by
    have hng : gtNaN t1 (some (t0 + GENRES_TTL)) = false := by
      simp [gtNaN]; omega
    simp [CacheService.get, hd1, he1, parseIntJS, hng, parseData]
  have hw2 : getGenres v2 t1 (getGenres v1 t0 (⟨emptyStore, 0⟩ : World V)).2
      = (v1, ⟨s1, 1⟩) := by
    rw [hw1]
    simp [getGenres, hfresh1]
  have hexpired : CacheService.get (str "genres_list") t2 s1
      = (none, removeKeys s1 [dataKey (str "genres_list"), expiryKey (str "genres_list")]) := by
    have hng : gtNaN t2 (some (t0 + GENRES_TTL)) = true := by
      simp [gtNaN]; omega
    simp [CacheService.get, hd1, he1, parseIntJS, hng]
  refine ⟨by rw [hw1], by rw [hw1], ?_, by rw [hw2], by rw [hw2], ?_⟩
  · rw [hw1]; exact hget0
  · rw [hw2]
    simp [getGenres, hexpired]

/-- C8 witness at concrete times 0, 1 and one past the TTL. -/
theorem getGenres_network_calls_witness :
    (0 : Nat) ≤ 1 ∧ (1 : Nat) ≤ 0 + GENRES_TTL ∧ 0 + GENRES_TTL < GENRES_TTL + 1
    ∧ (getGenres (3 : Nat) (GENRES_TTL + 1)
        (getGenres 2 1 (getGenres 1 0 (⟨emptyStore, 0⟩ : World Nat)).2).2).2.networkCalls
      = 2 :=
  ⟨by decide, by norm_num [GENRES_TTL], by norm_num [GENRES_TTL],
    (getGenres_network_calls 1 2 3 0 1 (GENRES_TTL + 1)
      (by norm_num) (by norm_num [GENRES_TTL]) (by norm_num)).2.2.2.2.2⟩
